import Mathlib

/-!
Verification development for the OSARA command-dispatch and fake-focus
coordination layer.  The repository header (src/osara.h) declares the
`Command` table entry, the `FakeFocus` enumeration, the `widen`/`narrow`
text codec and the `accPropServices` accessibility handle; the bodies of
FocusTracker, AccessibilityNotifier, CommandRegistry and the Dispatcher
are specified in the design document and modelled from it here.
-/

namespace Osara

/-- From src/osara.h: `enum FakeFocus { FOCUS_NONE = 0, FOCUS_TRACK,
FOCUS_ITEM, FOCUS_RULER }` — the process-wide fake focus value. -/
inductive FakeFocus where
  | FOCUS_NONE
  | FOCUS_TRACK
  | FOCUS_ITEM
  | FOCUS_RULER
deriving DecidableEq, Repr

/-- From src/osara.h: the numeric values of the enumerators
(`FOCUS_NONE = 0`, the rest implicitly 1, 2, 3). -/
def FakeFocus.toCode : FakeFocus → Nat
  | .FOCUS_NONE => 0
  | .FOCUS_TRACK => 1
  | .FOCUS_ITEM => 2
  | .FOCUS_RULER => 3

/-- A focus description: host-encoded text (a byte string) carried to the
notifier alongside a focus transition. -/
abbrev Description := List Nat

/-- Modelled from the spec: a handler body is a sequence of the actions the
design document allows a handler — host queries, host mutations, the single
FocusTracker setter, and raising a failure.  The bodies of the individual
per-command handlers are outside src/, so only this action surface is
modelled. -/
inductive HAct where
  | queryHost
  | hostMutate
  | setFocus (f : FakeFocus) (d : Description)
  | fail
  | seq (a b : HAct)
deriving DecidableEq, Repr

/-- From src/osara.h: `typedef struct Command { int sec; gaccel_register_t
gaccel; const char* id; void (*execute)(Command*); }` (the C field is named
`section`, which Lean reserves).  `gaccel` is the opaque accelerator
binding; `execute` is the handler, modelled as an `HAct` program. -/
structure Command where
  sec : Int
  gaccel : Nat
  id : String
  execute : HAct
deriving DecidableEq

/-- The registered command table: `(sec, id) -> Command`, kept in
registration order. -/
abbrev CommandTable := List Command

/-- The process-wide state the coordination layer touches: the command
table, the fake focus value, the last description forwarded to the
notifier (for de-duplication), the list of notifications the OS
accessibility service has received, and whether that service is
available. -/
structure SysState where
  table : CommandTable
  fakeFocus : FakeFocus
  lastDesc : Option Description
  announced : List Description
  serviceUp : Bool
deriving DecidableEq

/-- Modelled from the spec: process start — the command table as built at
registration, `fakeFocus` is `FOCUS_NONE` (a zero-initialised global whose
defining translation unit is outside src/), nothing announced yet. -/
def initialState (table : CommandTable) (serviceUp : Bool) : SysState :=
  { table := table
    fakeFocus := FakeFocus.FOCUS_NONE
    lastDesc := none
    announced := []
    serviceUp := serviceUp }

/-- Modelled from the spec: the underlying OS accessibility call (the
`accPropServices` bridge declared in src/osara.h); it fails when the
service is unavailable. -/
def osNotify (serviceUp : Bool) (d : Description) :
    Except Unit (List Description → List Description) :=
  if serviceUp then Except.ok (fun l => l ++ [d]) else Except.error ()

/-- Modelled from the spec: `AccessibilityNotifier.announce` — emits one
notification per accepted call; a failure of the OS call is swallowed
inside the notifier (it degrades to no announcement) so the function is
total and always returns a state. -/
def AccessibilityNotifier.announce (st : SysState) (d : Description) : SysState :=
  match osNotify st.serviceUp d with
  | Except.ok app => { st with announced := app st.announced }
  | Except.error () => st

/-- Modelled from the spec: `FocusTracker.current()` — the current fake
focus value, no side effects. -/
def FocusTracker.current (st : SysState) : FakeFocus := st.fakeFocus

/-- Modelled from the spec: `FocusTracker.set(newFocus, description)` — if
`newFocus` equals the current value and `description` equals the last
forwarded description this is a no-op; otherwise it updates both and
forwards the description to the notifier synchronously. -/
def FocusTracker.set (st : SysState) (newFocus : FakeFocus) (d : Description) :
    SysState :=
  if st.fakeFocus = newFocus ∧ st.lastDesc = some d then st
  else
    AccessibilityNotifier.announce
      { st with fakeFocus := newFocus, lastDesc := some d } d

/-- Modelled from the spec: run a handler program.  Returns the final
state, whether the handler ran to completion (`false` means it raised a
failure; side effects made before the failure persist), and how many
`FocusTracker.set` calls it performed. -/
def runH : HAct → SysState → SysState × Bool × Nat
  | HAct.queryHost, st => (st, true, 0)
  | HAct.hostMutate, st => (st, true, 0)
  | HAct.setFocus f d, st => (FocusTracker.set st f d, true, 1)
  | HAct.fail, st => (st, false, 0)
  | HAct.seq a b, st =>
    let r := runH a st
    if r.2.1 then
      let r2 := runH b r.1
      (r2.1, r2.2.1, r.2.2 + r2.2.2)
    else r

/-- Modelled from the spec: `CommandRegistry.lookup(section, id)` — pure
read of the table. -/
def CommandRegistry.lookup (t : CommandTable) (sec : Int) (id : String) :
    Option Command :=
  t.find? (fun c => c.sec = sec ∧ c.id = id)

/-- Modelled from the spec: `CommandRegistry.register` — fails with a
configuration error when `(sec, id)` already exists, otherwise appends. -/
def CommandRegistry.register (t : CommandTable) (c : Command) :
    Except Unit CommandTable :=
  match CommandRegistry.lookup t c.sec c.id with
  | some _ => Except.error ()
  | none => Except.ok (t ++ [c])

/-- Modelled from the spec: build the whole table at startup by registering
each command in turn; any duplicate surfaces here as a startup failure. -/
def CommandRegistry.registerAll (cs : List Command) : Except Unit CommandTable :=
  cs.foldlM CommandRegistry.register []

/-- The table invariant: all `(sec, id)` pairs pairwise distinct. -/
def distinctKeys (t : CommandTable) : Prop :=
  t.Pairwise (fun a b => ¬(a.sec = b.sec ∧ a.id = b.id))

/-- The tri-state result `Dispatcher.invoke` reports to the host. -/
inductive InvokeResult where
  | Handled
  | NotMine
  | HandledWithFailure
deriving DecidableEq, Repr

/-- Modelled from the spec: `Dispatcher.invoke(section, id)` — looks up the
command; on a miss returns `NotMine` untouched; otherwise runs the handler
synchronously, catching a handler failure at this boundary and converting
it to a normal `HandledWithFailure` return. -/
def Dispatcher.invoke (st : SysState) (sec : Int) (id : String) :
    InvokeResult × SysState :=
  match CommandRegistry.lookup st.table sec id with
  | none => (InvokeResult.NotMine, st)
  | some cmd =>
    let r := runH cmd.execute st
    (if r.2.1 then InvokeResult.Handled else InvokeResult.HandledWithFailure, r.1)

/-- Modelled from the spec: the text codec declared in src/osara.h as
`std::wstring widen(const std::string&)` and `std::string narrow(const
std::wstring&)`: conversion between the host's UTF-8 byte encoding and the
OS accessibility API's UTF-16 wide encoding, total, with best-effort
replacement (U+FFFD) on malformed input.  First the UTF-8 side. -/
def utf8EncodeChar (c : Nat) : List Nat :=
  if c < 0x80 then [c]
  else if c < 0x800 then [0xC0 + c / 0x40, 0x80 + c % 0x40]
  else if c < 0x10000 then
    [0xE0 + c / 0x1000, 0x80 + c / 0x40 % 0x40, 0x80 + c % 0x40]
  else [0xF0 + c / 0x40000, 0x80 + c / 0x1000 % 0x40,
        0x80 + c / 0x40 % 0x40, 0x80 + c % 0x40]

/-- UTF-8 encoding of a sequence of code points. -/
def utf8Encode : List Nat → List Nat
  | [] => []
  | c :: cs => utf8EncodeChar c ++ utf8Encode cs

/-- Whether a byte is a UTF-8 continuation byte (0x80..0xBF). -/
def contByte (b : Nat) : Bool := 0x80 ≤ b && b < 0xC0

/-- Decode one UTF-8 sequence whose lead byte is `b`: the decoded code
point and the remaining input.  Malformed input (stray continuation byte,
truncated sequence, bad continuation byte, overlong form, encoded
surrogate, out-of-range value) yields the replacement character U+FFFD and
consumes only the lead byte. -/
def utf8DecodeStep (b : Nat) (rest : List Nat) : Nat × List Nat :=
  if b < 0x80 then (b, rest)
  else if b < 0xC2 then (0xFFFD, rest)
  else if b < 0xE0 then
    match rest with
    | b1 :: rest1 =>
      if contByte b1 then ((b - 0xC0) * 0x40 + (b1 - 0x80), rest1)
      else (0xFFFD, rest)
    | [] => (0xFFFD, [])
  else if b < 0xF0 then
    match rest with
    | b1 :: b2 :: rest2 =>
      if contByte b1 && contByte b2 then
        let c := (b - 0xE0) * 0x1000 + (b1 - 0x80) * 0x40 + (b2 - 0x80)
        if c < 0x800 || (0xD800 ≤ c && c < 0xE000) then (0xFFFD, rest)
        else (c, rest2)
      else (0xFFFD, rest)
    | _ => (0xFFFD, rest)
  else if b < 0xF5 then
    match rest with
    | b1 :: b2 :: b3 :: rest3 =>
      if contByte b1 && contByte b2 && contByte b3 then
        let c := (b - 0xF0) * 0x40000 + (b1 - 0x80) * 0x1000 +
                 (b2 - 0x80) * 0x40 + (b3 - 0x80)
        if c < 0x10000 || 0x110000 ≤ c then (0xFFFD, rest)
        else (c, rest3)
      else (0xFFFD, rest)
    | _ => (0xFFFD, rest)
  else (0xFFFD, rest)

/-- Fuel-driven decode loop; the fuel only serves the termination argument
and is irrelevant whenever it is at least the input length. -/
def utf8DecodeAux : Nat → List Nat → List Nat
  | 0, _ => []
  | _, [] => []
  | fuel + 1, b :: rest =>
    let s := utf8DecodeStep b rest
    s.1 :: utf8DecodeAux fuel s.2

/-- UTF-8 decoding with U+FFFD replacement for malformed sequences. -/
def utf8Decode (l : List Nat) : List Nat := utf8DecodeAux l.length l

/-- UTF-16 encoding of one code point: BMP values stay single code units,
supplementary planes become a surrogate pair. -/
def utf16EncodeChar (c : Nat) : List Nat :=
  if c < 0x10000 then [c]
  else [0xD800 + (c - 0x10000) / 0x400, 0xDC00 + (c - 0x10000) % 0x400]

/-- UTF-16 encoding of a sequence of code points. -/
def utf16Encode : List Nat → List Nat
  | [] => []
  | c :: cs => utf16EncodeChar c ++ utf16Encode cs

/-- Decode one UTF-16 sequence whose lead unit is `u`: the decoded code
point and the remaining input.  An unpaired surrogate yields the
replacement character U+FFFD and consumes only the lead unit. -/
def utf16DecodeStep (u : Nat) (rest : List Nat) : Nat × List Nat :=
  if u < 0xD800 then (u, rest)
  else if u < 0xDC00 then
    match rest with
    | u1 :: rest1 =>
      if 0xDC00 ≤ u1 && u1 < 0xE000 then
        (0x10000 + (u - 0xD800) * 0x400 + (u1 - 0xDC00), rest1)
      else (0xFFFD, rest)
    | [] => (0xFFFD, [])
  else if u < 0xE000 then (0xFFFD, rest)
  else (u, rest)

/-- Fuel-driven decode loop; the fuel only serves the termination argument
and is irrelevant whenever it is at least the input length. -/
def utf16DecodeAux : Nat → List Nat → List Nat
  | 0, _ => []
  | _, [] => []
  | fuel + 1, u :: rest =>
    let s := utf16DecodeStep u rest
    s.1 :: utf16DecodeAux fuel s.2

/-- UTF-16 decoding with U+FFFD replacement for unpaired surrogates. -/
def utf16Decode (l : List Nat) : List Nat := utf16DecodeAux l.length l

/-- `widen` from src/osara.h: host (UTF-8) text to wide (UTF-16) text,
i.e. the spec's `toNotifierEncoding`. -/
def widen (s : List Nat) : List Nat := utf16Encode (utf8Decode s)

/-- `narrow` from src/osara.h: wide (UTF-16) text back to host (UTF-8)
text, i.e. the spec's `fromHostEncoding` used in the round-trip law. -/
def narrow (w : List Nat) : List Nat := utf8Encode (utf16Decode w)

/-- A Unicode scalar value: in range and not a surrogate. -/
def ValidScalar (c : Nat) : Prop := c < 0x110000 ∧ ¬(0xD800 ≤ c ∧ c < 0xE000)

instance : DecidablePred ValidScalar := fun c => by
  unfold ValidScalar; infer_instance

/-- A displayable host byte as typically returned by host queries:
printable ASCII. -/
def Displayable (b : Nat) : Prop := 0x20 ≤ b ∧ b < 0x7F

instance : DecidablePred Displayable := fun b => by
  unfold Displayable; infer_instance

/-- A well-formed wide string: the UTF-16 encoding of some sequence of
Unicode scalar values (equivalently, no unpaired surrogates). -/
def WellFormedWide (w : List Nat) : Prop :=
  ∃ cs : List Nat, (∀ c ∈ cs, ValidScalar c) ∧ w = utf16Encode cs

/-! Demo fixtures: a concrete command table for the scenario in the design
document (a track-select command announcing the track name "Drums"), and a
command whose handler fails after querying host state. -/

def drumsDesc : Description := [68, 114, 117, 109, 115]

def trackSelectCmd : Command :=
  { sec := 0, gaccel := 0, id := "trackSelect",
    execute := HAct.setFocus FakeFocus.FOCUS_TRACK drumsDesc }

def demoState : SysState := initialState [trackSelectCmd] true

def failCmd : Command :=
  { sec := 0, gaccel := 0, id := "failing",
    execute := HAct.seq HAct.queryHost HAct.fail }

def failState : SysState := initialState [failCmd] true

/-! Codec lemmas: the decode loops do not depend on the fuel once it covers
the input, decoding steps invert the corresponding encoding steps on
Unicode scalar values, and the round trips follow. -/

/-- The remaining input of a decode step is never longer than the input. -/
theorem utf8DecodeStep_length (b : Nat) (rest : List Nat) :
    (utf8DecodeStep b rest).2.length ≤ rest.length := by
  unfold utf8DecodeStep
  repeat' split
  all_goals try simp [apply_ite Prod.snd, apply_ite List.length]
  all_goals try split
  all_goals try simp
  all_goals omega

/-- The remaining input of a decode step is never longer than the input. -/
theorem utf16DecodeStep_length (u : Nat) (rest : List Nat) :
    (utf16DecodeStep u rest).2.length ≤ rest.length := by
  unfold utf16DecodeStep
  repeat' split
  all_goals simp

theorem utf8DecodeAux_eq (f1 f2 : Nat) (l : List Nat)
    (h1 : l.length ≤ f1) (h2 : l.length ≤ f2) :
    utf8DecodeAux f1 l = utf8DecodeAux f2 l := by
  induction f1 generalizing f2 l with
  | zero =>
    cases l with
    | nil => cases f2 <;> rfl
    | cons b rest => simp at h1
  | succ f ih =>
    cases l with
    | nil => cases f2 <;> rfl
    | cons b rest =>
      cases f2 with
      | zero => simp at h2
      | succ f2 =>
        simp only [utf8DecodeAux]
        rw [ih _ _
          (le_trans (utf8DecodeStep_length b rest) (by simpa using h1))
          (le_trans (utf8DecodeStep_length b rest) (by simpa using h2))]

theorem utf8Decode_cons (b : Nat) (rest : List Nat) :
    utf8Decode (b :: rest) =
      (utf8DecodeStep b rest).1 :: utf8Decode (utf8DecodeStep b rest).2 := by
  rw [utf8Decode, utf8Decode, List.length_cons, utf8DecodeAux]
  exact congrArg _ (utf8DecodeAux_eq _ _ _ (utf8DecodeStep_length b rest) le_rfl)

theorem utf8DecodeStep_enc1 (c : Nat) (rest : List Nat) (h : c < 0x80) :
    utf8DecodeStep c rest = (c, rest) := by
  simp only [utf8DecodeStep]
  rw [if_pos h]

theorem utf8DecodeStep_enc2 (c : Nat) (rest : List Nat)
    (h1 : 0x80 ≤ c) (h2 : c < 0x800) :
    utf8DecodeStep (0xC0 + c / 0x40) ((0x80 + c % 0x40) :: rest) = (c, rest) := by
  simp only [utf8DecodeStep, contByte]
  rw [if_neg (by omega), if_neg (by omega), if_pos (by omega)]
  simp only [decide_eq_true_eq, Bool.and_eq_true]
  rw [if_pos (by omega)]
  exact Prod.ext (by omega) rfl

theorem utf8DecodeStep_enc3 (c : Nat) (rest : List Nat)
    (h1 : 0x800 ≤ c) (h2 : c < 0x10000) (h3 : ¬(0xD800 ≤ c ∧ c < 0xE000)) :
    utf8DecodeStep (0xE0 + c / 0x1000)
      ((0x80 + c / 0x40 % 0x40) :: (0x80 + c % 0x40) :: rest) = (c, rest) := by
  simp only [utf8DecodeStep, contByte]
  rw [if_neg (by omega), if_neg (by omega), if_neg (by omega), if_pos (by omega)]
  simp only [decide_eq_true_eq, Bool.and_eq_true, Bool.or_eq_true]
  rw [if_pos (by omega), if_neg (by omega)]
  exact Prod.ext (by omega) rfl

theorem utf8DecodeStep_enc4 (c : Nat) (rest : List Nat)
    (h1 : 0x10000 ≤ c) (h2 : c < 0x110000) :
    utf8DecodeStep (0xF0 + c / 0x40000)
      ((0x80 + c / 0x1000 % 0x40) :: (0x80 + c / 0x40 % 0x40) ::
        (0x80 + c % 0x40) :: rest) = (c, rest) := by
  simp only [utf8DecodeStep, contByte]
  rw [if_neg (by omega), if_neg (by omega), if_neg (by omega), if_neg (by omega),
      if_pos (by omega)]
  simp only [decide_eq_true_eq, Bool.and_eq_true, Bool.or_eq_true]
  rw [if_pos (by omega), if_neg (by omega)]
  exact Prod.ext (by omega) rfl

theorem utf8Decode_encodeChar (c : Nat) (rest : List Nat) (h : ValidScalar c) :
    utf8Decode (utf8EncodeChar c ++ rest) = c :: utf8Decode rest := by
  obtain ⟨hlt, hsur⟩ := h
  by_cases h1 : c < 0x80
  · rw [utf8EncodeChar, if_pos h1, List.cons_append, List.nil_append,
        utf8Decode_cons, utf8DecodeStep_enc1 c rest h1]
  · by_cases h2 : c < 0x800
    · rw [utf8EncodeChar, if_neg h1, if_pos h2, List.cons_append,
          List.cons_append, List.nil_append, utf8Decode_cons,
          utf8DecodeStep_enc2 c rest (by omega) h2]
    · by_cases h3 : c < 0x10000
      · rw [utf8EncodeChar, if_neg h1, if_neg h2, if_pos h3, List.cons_append,
            List.cons_append, List.cons_append, List.nil_append, utf8Decode_cons,
            utf8DecodeStep_enc3 c rest (by omega) h3 hsur]
      · rw [utf8EncodeChar, if_neg h1, if_neg h2, if_neg h3, List.cons_append,
            List.cons_append, List.cons_append, List.cons_append,
            List.nil_append, utf8Decode_cons,
            utf8DecodeStep_enc4 c rest (by omega) hlt]

theorem utf8_decode_encode (l : List Nat) (h : ∀ c ∈ l, ValidScalar c) :
    utf8Decode (utf8Encode l) = l := by
  induction l with
  | nil => simp [utf8Encode, utf8Decode, utf8DecodeAux]
  | cons c cs ih =>
    rw [utf8Encode, utf8Decode_encodeChar c (utf8Encode cs) (h c (by simp)),
        ih (fun x hx => h x (by simp [hx]))]

theorem utf16DecodeAux_eq (f1 f2 : Nat) (l : List Nat)
    (h1 : l.length ≤ f1) (h2 : l.length ≤ f2) :
    utf16DecodeAux f1 l = utf16DecodeAux f2 l := by
  induction f1 generalizing f2 l with
  | zero =>
    cases l with
    | nil => cases f2 <;> rfl
    | cons u rest => simp at h1
  | succ f ih =>
    cases l with
    | nil => cases f2 <;> rfl
    | cons u rest =>
      cases f2 with
      | zero => simp at h2
      | succ f2 =>
        simp only [utf16DecodeAux]
        rw [ih _ _
          (le_trans (utf16DecodeStep_length u rest) (by simpa using h1))
          (le_trans (utf16DecodeStep_length u rest) (by simpa using h2))]

theorem utf16Decode_cons (u : Nat) (rest : List Nat) :
    utf16Decode (u :: rest) =
      (utf16DecodeStep u rest).1 :: utf16Decode (utf16DecodeStep u rest).2 := by
  rw [utf16Decode, utf16Decode, List.length_cons, utf16DecodeAux]
  exact congrArg _ (utf16DecodeAux_eq _ _ _ (utf16DecodeStep_length u rest) le_rfl)

theorem utf16DecodeStep_bmp (c : Nat) (rest : List Nat)
    (h : c < 0x10000) (h2 : ¬(0xD800 ≤ c ∧ c < 0xE000)) :
    utf16DecodeStep c rest = (c, rest) := by
  simp only [utf16DecodeStep]
  by_cases hlo : c < 0xD800
  · rw [if_pos hlo]
  · rw [if_neg hlo, if_neg (by omega), if_neg (by omega)]

theorem utf16DecodeStep_supp (c : Nat) (rest : List Nat)
    (h1 : 0x10000 ≤ c) (h2 : c < 0x110000) :
    utf16DecodeStep (0xD800 + (c - 0x10000) / 0x400)
      ((0xDC00 + (c - 0x10000) % 0x400) :: rest) = (c, rest) := by
  simp only [utf16DecodeStep]
  rw [if_neg (by omega), if_pos (by omega)]
  simp only [decide_eq_true_eq, Bool.and_eq_true]
  rw [if_pos (by omega)]
  exact Prod.ext (by omega) rfl

theorem utf16Decode_encodeChar (c : Nat) (rest : List Nat) (h : ValidScalar c) :
    utf16Decode (utf16EncodeChar c ++ rest) = c :: utf16Decode rest := by
  obtain ⟨hlt, hsur⟩ := h
  by_cases h1 : c < 0x10000
  · rw [utf16EncodeChar, if_pos h1, List.cons_append, List.nil_append,
        utf16Decode_cons, utf16DecodeStep_bmp c rest h1 hsur]
  · rw [utf16EncodeChar, if_neg h1, List.cons_append, List.cons_append,
        List.nil_append, utf16Decode_cons,
        utf16DecodeStep_supp c rest (by omega) hlt]

theorem utf16_decode_encode (l : List Nat) (h : ∀ c ∈ l, ValidScalar c) :
    utf16Decode (utf16Encode l) = l := by
  induction l with
  | nil => simp [utf16Encode, utf16Decode, utf16DecodeAux]
  | cons c cs ih =>
    rw [utf16Encode, utf16Decode_encodeChar c (utf16Encode cs) (h c (by simp)),
        ih (fun x hx => h x (by simp [hx]))]

theorem utf8Decode_ascii (l : List Nat) (h : ∀ b ∈ l, b < 0x80) :
    utf8Decode l = l := by
  induction l with
  | nil => simp [utf8Decode, utf8DecodeAux]
  | cons b bs ih =>
    rw [utf8Decode_cons, utf8DecodeStep_enc1 b bs (h b (by simp)),
        ih (fun x hx => h x (by simp [hx]))]

theorem utf8Encode_ascii (l : List Nat) (h : ∀ b ∈ l, b < 0x80) :
    utf8Encode l = l := by
  induction l with
  | nil => rfl
  | cons b bs ih =>
    rw [utf8Encode, utf8EncodeChar, if_pos (h b (by simp)),
        ih (fun x hx => h x (by simp [hx]))]
    rfl

/-- Claim C6: codec round trip — for every string made of the displayable
characters typically returned by host queries, decoding the encoded form
gives the string back: narrow (widen s) = s, i.e.
fromHostEncoding (toNotifierEncoding s) = s. -/
theorem claim_C6_codec_roundtrip (s : List Nat) (h : ∀ b ∈ s, Displayable b) :
    narrow (widen s) = s := by
  have hlt : ∀ b ∈ s, b < 0x80 := by
    intro b hb
    have := h b hb
    unfold Displayable at this
    omega
  have hv : ∀ b ∈ s, ValidScalar b := by
    intro b hb
    have := hlt b hb
    exact ⟨by omega, by omega⟩
  rw [widen, utf8Decode_ascii s hlt, narrow, utf16_decode_encode s hv,
      utf8Encode_ascii s hlt]

/-- Claim C10: the reverse codec round trip also holds — for every
well-formed wide (notifier-encoding) string w, widen (narrow w) = w, so
narrow and widen are mutually inverse on well-formed text in both
directions. -/
theorem claim_C10_reverse_roundtrip (w : List Nat) (h : WellFormedWide w) :
    widen (narrow w) = w := by
  obtain ⟨cs, hcs, rfl⟩ := h
  rw [narrow, utf16_decode_encode cs hcs, widen, utf8_decode_encode cs hcs]

theorem claim_C6_witness :
    (∀ b ∈ ([0x54, 0x72, 0x61, 0x63, 0x6B, 0x20, 0x33] : List Nat),
      Displayable b) ∧
    narrow (widen [0x54, 0x72, 0x61, 0x63, 0x6B, 0x20, 0x33]) =
      [0x54, 0x72, 0x61, 0x63, 0x6B, 0x20, 0x33] :=
  ⟨by decide, claim_C6_codec_roundtrip _ (by decide)⟩

theorem claim_C10_witness :
    WellFormedWide [0xD834, 0xDD1E] ∧
    widen (narrow [0xD834, 0xDD1E]) = [0xD834, 0xDD1E] :=
  ⟨⟨[0x1D11E], by decide, by decide⟩,
    claim_C10_reverse_roundtrip _ ⟨[0x1D11E], by decide, by decide⟩⟩

/-! State lemmas: the notifier only touches the announcement channel, the
tracker setter establishes its target fields, and handler runs preserve the
command table and — when they perform no set — the whole state. -/

theorem announce_fields (st : SysState) (d : Description) :
    (AccessibilityNotifier.announce st d).table = st.table ∧
    (AccessibilityNotifier.announce st d).fakeFocus = st.fakeFocus ∧
    (AccessibilityNotifier.announce st d).lastDesc = st.lastDesc ∧
    (AccessibilityNotifier.announce st d).serviceUp = st.serviceUp := by
  cases h : st.serviceUp <;>
    simp [AccessibilityNotifier.announce, osNotify, h]

theorem announce_announced (st : SysState) (d : Description) :
    (AccessibilityNotifier.announce st d).announced =
      if st.serviceUp then st.announced ++ [d] else st.announced := by
  cases h : st.serviceUp <;>
    simp [AccessibilityNotifier.announce, osNotify, h]

theorem set_fakeFocus (st : SysState) (f : FakeFocus) (d : Description) :
    (FocusTracker.set st f d).fakeFocus = f := by
  unfold FocusTracker.set
  split
  · next h => exact h.1
  · next h => exact (announce_fields _ _).2.1

theorem set_lastDesc (st : SysState) (f : FakeFocus) (d : Description) :
    (FocusTracker.set st f d).lastDesc = some d := by
  unfold FocusTracker.set
  split
  · next h => exact h.2
  · next h => exact (announce_fields _ _).2.2.1

theorem set_table (st : SysState) (f : FakeFocus) (d : Description) :
    (FocusTracker.set st f d).table = st.table := by
  unfold FocusTracker.set
  split
  · rfl
  · exact (announce_fields _ _).1

theorem set_serviceUp (st : SysState) (f : FakeFocus) (d : Description) :
    (FocusTracker.set st f d).serviceUp = st.serviceUp := by
  unfold FocusTracker.set
  split
  · rfl
  · exact (announce_fields _ _).2.2.2

theorem set_announced (st : SysState) (f : FakeFocus) (d : Description) :
    (FocusTracker.set st f d).announced =
      if st.fakeFocus = f ∧ st.lastDesc = some d then st.announced
      else if st.serviceUp then st.announced ++ [d] else st.announced := by
  unfold FocusTracker.set
  split
  · rfl
  · rw [announce_announced]

theorem set_set_same (st : SysState) (f : FakeFocus) (d : Description) :
    FocusTracker.set (FocusTracker.set st f d) f d = FocusTracker.set st f d := by
  unfold FocusTracker.set
  rw [if_pos ⟨set_fakeFocus st f d, set_lastDesc st f d⟩]

theorem runH_table (p : HAct) (st : SysState) :
    (runH p st).1.table = st.table := by
  induction p generalizing st with
  | queryHost => rfl
  | hostMutate => rfl
  | setFocus f d => exact set_table st f d
  | fail => rfl
  | seq a b iha ihb =>
    rw [runH]
    by_cases h : (runH a st).2.1
    · simp only [if_pos h]
      rw [ihb, iha]
    · simp only [if_neg h]
      exact iha st

theorem runH_nosets (p : HAct) (st : SysState) (h : (runH p st).2.2 = 0) :
    (runH p st).1 = st := by
  induction p generalizing st with
  | queryHost => rfl
  | hostMutate => rfl
  | setFocus f d => rw [runH] at h; simp at h
  | fail => rfl
  | seq a b iha ihb =>
    rw [runH] at h ⊢
    by_cases hok : (runH a st).2.1
    · simp only [if_pos hok] at h ⊢
      have ha : (runH a st).2.2 = 0 := by omega
      have hb : (runH b (runH a st).1).2.2 = 0 := by omega
      rw [ihb _ hb, iha _ ha]
    · simp only [if_neg hok] at h ⊢
      exact iha st h

/-- Claim C1: idempotence of focus setting — a second FocusTracker.set call
with the identical focus and description is a complete no-op, the pair of
calls produces exactly one notification in total when the first call was a
genuine change and the service is up, and end-to-end a command whose
handler re-asserts the same focus and description produces no second
notification when re-invoked. -/
theorem claim_C1_focus_idempotent (st : SysState) (F : FakeFocus)
    (D : Description) (sec : Int) (id : String) (cmd : Command)
    (hlook : CommandRegistry.lookup st.table sec id = some cmd)
    (hexec : cmd.execute = HAct.setFocus F D)
    (hfresh : ¬(st.fakeFocus = F ∧ st.lastDesc = some D))
    (hup : st.serviceUp = true) :
    FocusTracker.set (FocusTracker.set st F D) F D = FocusTracker.set st F D ∧
    (FocusTracker.set (FocusTracker.set st F D) F D).announced =
      st.announced ++ [D] ∧
    (Dispatcher.invoke (Dispatcher.invoke st sec id).2 sec id).2.announced =
      (Dispatcher.invoke st sec id).2.announced := by
  refine ⟨set_set_same st F D, ?_, ?_⟩
  · rw [set_set_same, set_announced, if_neg hfresh, if_pos hup]
  · have h1 : Dispatcher.invoke st sec id =
        (InvokeResult.Handled, FocusTracker.set st F D) := by
      unfold Dispatcher.invoke
      rw [hlook]
      simp [hexec, runH]
    have h2 : Dispatcher.invoke (FocusTracker.set st F D) sec id =
        (InvokeResult.Handled,
          FocusTracker.set (FocusTracker.set st F D) F D) := by
      unfold Dispatcher.invoke
      rw [set_table, hlook]
      simp [hexec, runH]
    rw [h1, h2, set_set_same]

theorem claim_C1_witness :
    (¬(demoState.fakeFocus = FakeFocus.FOCUS_TRACK ∧
        demoState.lastDesc = some drumsDesc)) ∧
    demoState.serviceUp = true ∧
    (FocusTracker.set
        (FocusTracker.set demoState FakeFocus.FOCUS_TRACK drumsDesc)
        FakeFocus.FOCUS_TRACK drumsDesc).announced =
      demoState.announced ++ [drumsDesc] :=
  ⟨by decide, rfl,
    (claim_C1_focus_idempotent demoState FakeFocus.FOCUS_TRACK drumsDesc
      0 "trackSelect" trackSelectCmd rfl rfl (by decide) rfl).2.1⟩

/-- Claim C2: announcement ordering — a sequence of set calls with pairwise
distinct descriptions D1, D2, D3 from the initial state makes the notifier
emit exactly [D1, D2, D3]: same elements, same order, no coalescing. -/
theorem claim_C2_ordering (t : CommandTable) (F1 F2 F3 : FakeFocus)
    (D1 D2 D3 : Description)
    (h12 : D1 ≠ D2) (h23 : D2 ≠ D3) (_h13 : D1 ≠ D3) :
    (FocusTracker.set
        (FocusTracker.set
          (FocusTracker.set (initialState t true) F1 D1) F2 D2) F3 D3).announced
      = [D1, D2, D3] := by
  have h0f : (initialState t true).lastDesc = none := rfl
  have h0s : (initialState t true).serviceUp = true := rfl
  have hl1 := set_lastDesc (initialState t true) F1 D1
  have hs1 : (FocusTracker.set (initialState t true) F1 D1).serviceUp = true :=
    (set_serviceUp _ _ _).trans h0s
  have e1 : (FocusTracker.set (initialState t true) F1 D1).announced = [D1] := by
    rw [set_announced, if_neg (by rw [h0f]; simp), if_pos h0s]
    rfl
  have hl2 := set_lastDesc (FocusTracker.set (initialState t true) F1 D1) F2 D2
  have hs2 : (FocusTracker.set (FocusTracker.set (initialState t true) F1 D1)
      F2 D2).serviceUp = true :=
    (set_serviceUp _ _ _).trans hs1
  have e2 : (FocusTracker.set (FocusTracker.set (initialState t true) F1 D1)
      F2 D2).announced = [D1, D2] := by
    rw [set_announced, if_neg (by rw [hl1]; simp [h12]), if_pos hs1, e1]
    rfl
  rw [set_announced, if_neg (by rw [hl2]; simp [h23]), if_pos hs2, e2]
  rfl

theorem claim_C2_witness :
    ([65] : Description) ≠ [66] ∧ ([66] : Description) ≠ [67] ∧
    ([65] : Description) ≠ [67] ∧
    (FocusTracker.set
        (FocusTracker.set
          (FocusTracker.set (initialState [] true)
            FakeFocus.FOCUS_TRACK [65]) FakeFocus.FOCUS_ITEM [66])
        FakeFocus.FOCUS_RULER [67]).announced = [[65], [66], [67]] :=
  ⟨by decide, by decide, by decide,
    claim_C2_ordering [] FakeFocus.FOCUS_TRACK FakeFocus.FOCUS_ITEM
      FakeFocus.FOCUS_RULER [65] [66] [67] (by decide) (by decide) (by decide)⟩

/-- Claim C3: handler failure isolation and atomicity — a handler failure is
caught at the Dispatcher boundary and converted to a normal
HandledWithFailure return (the host never observes an exception), and when
the handler failed before performing any FocusTracker.set the tracked focus
(and indeed the whole state) is unchanged. -/
theorem claim_C3_failure_isolation (st : SysState) (sec : Int) (id : String)
    (cmd : Command)
    (hlook : CommandRegistry.lookup st.table sec id = some cmd)
    (hfail : (runH cmd.execute st).2.1 = false) :
    (Dispatcher.invoke st sec id).1 = InvokeResult.HandledWithFailure ∧
    ((runH cmd.execute st).2.2 = 0 →
      FocusTracker.current (Dispatcher.invoke st sec id).2 =
        FocusTracker.current st ∧
      (Dispatcher.invoke st sec id).2 = st) := by
  have hinv : Dispatcher.invoke st sec id =
      (InvokeResult.HandledWithFailure, (runH cmd.execute st).1) := by
    unfold Dispatcher.invoke
    rw [hlook]
    simp [hfail]
  constructor
  · rw [hinv]
  · intro hz
    rw [hinv, runH_nosets cmd.execute st hz]
    exact ⟨rfl, rfl⟩

theorem claim_C3_witness :
    CommandRegistry.lookup failState.table 0 "failing" = some failCmd ∧
    (runH failCmd.execute failState).2.1 = false ∧
    (runH failCmd.execute failState).2.2 = 0 ∧
    (Dispatcher.invoke failState 0 "failing").1 =
      InvokeResult.HandledWithFailure ∧
    (Dispatcher.invoke failState 0 "failing").2 = failState :=
  ⟨by decide, by decide, by decide,
    (claim_C3_failure_isolation failState 0 "failing" failCmd (by decide)
      (by decide)).1,
    ((claim_C3_failure_isolation failState 0 "failing" failCmd (by decide)
      (by decide)).2 (by decide)).2⟩

/-- Claim C4: dispatch miss is non-fatal and frame-preserving — when the id
is not registered in the section, invoke returns NotMine and leaves the
whole state, in particular the FocusTracker value and the command table,
unchanged. -/
theorem claim_C4_miss_nonfatal (st : SysState) (sec : Int) (id : String)
    (h : CommandRegistry.lookup st.table sec id = none) :
    Dispatcher.invoke st sec id = (InvokeResult.NotMine, st) ∧
    (Dispatcher.invoke st sec id).2.table = st.table ∧
    FocusTracker.current (Dispatcher.invoke st sec id).2 =
      FocusTracker.current st := by
  have hinv : Dispatcher.invoke st sec id = (InvokeResult.NotMine, st) := by
    unfold Dispatcher.invoke
    rw [h]
  exact ⟨hinv, by rw [hinv], by rw [hinv]⟩

theorem claim_C4_witness :
    CommandRegistry.lookup demoState.table 0 "nonexistent" = none ∧
    Dispatcher.invoke demoState 0 "nonexistent" =
      (InvokeResult.NotMine, demoState) :=
  ⟨by decide,
    (claim_C4_miss_nonfatal demoState 0 "nonexistent" (by decide)).1⟩

/-! Registration lemmas for C5. -/

theorem register_error_iff (t : CommandTable) (c : Command) :
    CommandRegistry.register t c = Except.error () ↔
      ∃ c2 ∈ t, c2.sec = c.sec ∧ c2.id = c.id := by
  unfold CommandRegistry.register CommandRegistry.lookup
  cases hf : t.find? (fun c2 => c2.sec = c.sec ∧ c2.id = c.id) with
  | none =>
    simp only []
    constructor
    · intro h
      cases h
    · rintro ⟨c2, hmem, hsec, hid⟩
      have hnone := List.find?_eq_none.mp hf c2 hmem
      simp at hnone
      exact (hnone hsec hid).elim
  | some c2 =>
    simp only []
    constructor
    · intro _
      have hp := List.find?_some hf
      have hmem := List.mem_of_find?_eq_some hf
      simp only [decide_eq_true_eq, Bool.and_eq_true] at hp
      exact ⟨c2, hmem, by simpa using hp⟩
    · intro _
      trivial

theorem register_distinct (t : CommandTable) (c : Command) (t2 : CommandTable)
    (hd : distinctKeys t) (h : CommandRegistry.register t c = Except.ok t2) :
    distinctKeys t2 := by
  unfold CommandRegistry.register CommandRegistry.lookup at h
  cases hf : t.find? (fun c2 => c2.sec = c.sec ∧ c2.id = c.id) with
  | some c2 => rw [hf] at h; cases h
  | none =>
    rw [hf] at h
    injection h with h
    subst h
    unfold distinctKeys
    rw [List.pairwise_append]
    refine ⟨hd, List.pairwise_singleton _ _, ?_⟩
    intro a ha b hb
    simp only [List.mem_singleton] at hb
    subst hb
    have := List.find?_eq_none.mp hf a ha
    simpa using this

theorem registerAll_distinct_from (cs : List Command) (acc : CommandTable)
    (hacc : distinctKeys acc) (t2 : CommandTable)
    (h : List.foldlM CommandRegistry.register acc cs = Except.ok t2) :
    distinctKeys t2 := by
  induction cs generalizing acc with
  | nil =>
    simp only [List.foldlM] at h
    cases h
    exact hacc
  | cons c cs ih =>
    simp only [List.foldlM] at h
    cases hr : CommandRegistry.register acc c with
    | error e => rw [hr] at h; cases h
    | ok acc2 =>
      rw [hr] at h
      exact ih acc2 (register_distinct acc c acc2 hacc hr) h

/-- Claim C5: uniqueness of command identity — register fails with a
configuration error exactly when an entry with the same (section, id)
already exists, a successful registration preserves pairwise distinctness
of (section, id) keys, and any table produced by the startup registration
sequence has pairwise distinct keys. -/
theorem claim_C5_uniqueness (t : CommandTable) (c : Command)
    (cs : List Command) :
    (CommandRegistry.register t c = Except.error () ↔
      ∃ c2 ∈ t, c2.sec = c.sec ∧ c2.id = c.id) ∧
    (distinctKeys t → ∀ t2, CommandRegistry.register t c = Except.ok t2 →
      distinctKeys t2) ∧
    (∀ t2, CommandRegistry.registerAll cs = Except.ok t2 → distinctKeys t2) :=
  ⟨register_error_iff t c,
    fun hd t2 h => register_distinct t c t2 hd h,
    fun t2 h => registerAll_distinct_from cs [] List.Pairwise.nil t2 h⟩

theorem claim_C5_witness :
    (CommandRegistry.register [trackSelectCmd] trackSelectCmd =
        Except.error () ↔
      ∃ c2 ∈ [trackSelectCmd], c2.sec = trackSelectCmd.sec ∧
        c2.id = trackSelectCmd.id) ∧
    (∀ t2, CommandRegistry.registerAll [trackSelectCmd, failCmd] =
        Except.ok t2 → distinctKeys t2) :=
  ⟨(claim_C5_uniqueness [trackSelectCmd] trackSelectCmd []).1,
    (claim_C5_uniqueness [trackSelectCmd] trackSelectCmd
      [trackSelectCmd, failCmd]).2.2⟩

/-- Claim C7: notifier failure swallowing — when the OS accessibility
service is unavailable the underlying call fails, yet announce still
returns a state normally (the model function is total) and degrades to no
announcement made: the state is returned untouched. -/
theorem claim_C7_notifier_swallows (st : SysState) (d : Description)
    (h : st.serviceUp = false) :
    osNotify st.serviceUp d = Except.error () ∧
    AccessibilityNotifier.announce st d = st := by
  constructor
  · rw [h]
    rfl
  · unfold AccessibilityNotifier.announce osNotify
    rw [h]
    rfl

theorem claim_C7_witness :
    (initialState [] false).serviceUp = false ∧
    AccessibilityNotifier.announce (initialState [] false) drumsDesc =
      initialState [] false :=
  ⟨rfl, (claim_C7_notifier_swallows (initialState [] false) drumsDesc rfl).2⟩

/-- Claim C8: FakeFocus state space and initial value — the fake focus
ranges over exactly the four variants FOCUS_NONE, FOCUS_TRACK, FOCUS_ITEM,
FOCUS_RULER (with numeric codes 0, 1, 2, 3 as in the header), the tracked
state holds exactly one of them at any instant, and at process start the
current value is FOCUS_NONE. -/
theorem claim_C8_state_space (t : CommandTable) (b : Bool) :
    (∀ f : FakeFocus, f = FakeFocus.FOCUS_NONE ∨ f = FakeFocus.FOCUS_TRACK ∨
      f = FakeFocus.FOCUS_ITEM ∨ f = FakeFocus.FOCUS_RULER) ∧
    [FakeFocus.FOCUS_NONE, FakeFocus.FOCUS_TRACK, FakeFocus.FOCUS_ITEM,
      FakeFocus.FOCUS_RULER].map FakeFocus.toCode = [0, 1, 2, 3] ∧
    FocusTracker.current (initialState t b) = FakeFocus.FOCUS_NONE := by
  refine ⟨fun f => ?_, by decide, rfl⟩
  cases f
  · exact Or.inl rfl
  · exact Or.inr (Or.inl rfl)
  · exact Or.inr (Or.inr (Or.inl rfl))
  · exact Or.inr (Or.inr (Or.inr rfl))

/-- Claim C9: a handler returns nothing (void), so the tri-state result
invoke reports is determined solely by whether the lookup finds an entry
and by whether the dispatcher caught a raised failure — a handler that runs
to completion cannot signal success or failure through a return value. -/
theorem claim_C9_result_determination (st : SysState) (sec : Int)
    (id : String) :
    ((Dispatcher.invoke st sec id).1 = InvokeResult.NotMine ↔
      CommandRegistry.lookup st.table sec id = none) ∧
    ∀ cmd, CommandRegistry.lookup st.table sec id = some cmd →
      (((Dispatcher.invoke st sec id).1 = InvokeResult.Handled ↔
        (runH cmd.execute st).2.1 = true) ∧
       ((Dispatcher.invoke st sec id).1 = InvokeResult.HandledWithFailure ↔
        (runH cmd.execute st).2.1 = false)) := by
  cases hl : CommandRegistry.lookup st.table sec id with
  | none =>
    have hinv : Dispatcher.invoke st sec id = (InvokeResult.NotMine, st) := by
      unfold Dispatcher.invoke
      rw [hl]
    rw [hinv]
    simp [hl]
  | some cmd =>
    have hinv : Dispatcher.invoke st sec id =
        ((if (runH cmd.execute st).2.1 then InvokeResult.Handled
          else InvokeResult.HandledWithFailure), (runH cmd.execute st).1) := by
      unfold Dispatcher.invoke
      rw [hl]
    rw [hinv]
    by_cases hr : (runH cmd.execute st).2.1 <;> simp [hr, hl]

theorem claim_C9_witness :
    (Dispatcher.invoke demoState 0 "trackSelect").1 = InvokeResult.Handled ↔
      (runH trackSelectCmd.execute demoState).2.1 = true :=
  ((claim_C9_result_determination demoState 0 "trackSelect").2
    trackSelectCmd (by decide)).1

end Osara
